import Mathlib

/-!
Shallow embedding of the expireassist backend (src/server/server.js).

The relational store is modelled as lists of rows; the SQL statements of the
meal-matching endpoint and of the inventory CRUD endpoints are translated
row-by-row into list operations.  All machine arithmetic in the source is on
small row counts and SQLite INTEGER columns, modelled by Int/Nat; the
JavaScript float score is modelled by the rational number it computes.
-/

/-- A row of the `items` table (catalog).  Only the columns the verified
endpoints read (`id`, `name`) are modelled; the remaining columns
(`category`, `shelf_life_days`, `photo_path`) are never consumed by the
meal matcher or by the claims under study. -/
structure Item where
  id : Int
  name : String
deriving DecidableEq, Repr

/-- A row of the `meals` table. -/
structure Meal where
  id : Int
  name : String
  description : String
deriving DecidableEq, Repr

/-- A row of the `meal_items` join table. -/
structure MealItemRow where
  meal_id : Int
  item_id : Int
deriving DecidableEq, Repr

/-- A row of the `inventory` table. -/
structure InventoryRow where
  id : Int
  item_id : Int
  expiry_date : Option String
  quantity : Int
deriving DecidableEq, Repr

/-- The database state: one list of rows per table, in rowid order. -/
structure DB where
  items : List Item
  meals : List Meal
  mealItems : List MealItemRow
  inventory : List InventoryRow
deriving DecidableEq, Repr

/-- One element of the ranked-mode response (server.js lines 143-154),
the object literal built inside `formatted`. -/
structure MatchResult where
  id : Int
  name : String
  description : String
  total_items : Nat
  matched_items : Nat
  score : ℚ
  missing_count : Int
  items : List Item
  matched_item_names : List String
  missing_item_names : List String
deriving DecidableEq, Repr

/-- One element of the browse-mode response: a meal with its attached
ingredient list and nothing else (`attachItemsToMeals` output, server.js
line 108).  Note this shape carries no score and no matched/missing
annotations, so it is distinguishable from `MatchResult`. -/
structure MealWithItems where
  id : Int
  name : String
  description : String
  items : List Item
deriving DecidableEq, Repr

/-- An HTTP response of GET /api/meals: a ranked match list, a browse-mode
full listing, or an error, each with its HTTP status code. -/
inductive Response where
  | ranked (status : Nat) (results : List MatchResult)
  | browse (status : Nat) (listing : List MealWithItems)
  | error (status : Nat) (msg : String)
deriving DecidableEq, Repr

/-- JavaScript `a || b` on numbers that are natural counts: `a` when it is
truthy (nonzero), otherwise `b`.  Used for `items.length || m.total_items`
and `matchedList.length || m.matched_items` (server.js lines 139, 141). -/
def jsOr (a b : Nat) : Nat := if a = 0 then b else a

/-- The SQL aggregate `COUNT(mi.item_id)` for one meal group of
`JOIN meal_items mi ON mi.meal_id = m.id GROUP BY m.id` (server.js line 119):
the number of meal_items rows of the meal. -/
def totalFor (db : DB) (m : Meal) : Nat :=
  (db.mealItems.filter (fun r => r.meal_id = m.id)).length

/-- The SQL aggregate `SUM(CASE WHEN mi.item_id IN (...) THEN 1 ELSE 0 END)`
for one meal group (server.js line 120): the number of the meal's meal_items
rows whose item id is in the supplied id list. -/
def matchedFor (db : DB) (ids : List Int) (m : Meal) : Nat :=
  ((db.mealItems.filter (fun r => r.meal_id = m.id)).filter
    (fun r => r.item_id ∈ ids)).length

/-- The SQL expression `(total_items - matched_items)` of the ORDER BY
(server.js line 125).  `matchedFor` counts a subset of the rows counted by
`totalFor`, so natural subtraction is exact. -/
def missingFor (db : DB) (ids : List Int) (m : Meal) : Nat :=
  totalFor db m - matchedFor db ids m

/-- Comparison of the `ORDER BY matched_items DESC, (total_items -
matched_items) ASC` clause (server.js line 125), as a total Boolean
preorder on meals. -/
def rankLE (db : DB) (ids : List Int) (a b : Meal) : Bool :=
  decide (matchedFor db ids b < matchedFor db ids a) ||
    (decide (matchedFor db ids a = matchedFor db ids b) &&
      decide (missingFor db ids a ≤ missingFor db ids b))

/-- Comparison by meal id, used to fix one concrete enumeration order for
the `GROUP BY m.id` groups in the model (the SQL itself does not specify
one). -/
def leId (a b : Meal) : Bool := decide (a.id ≤ b.id)

/-- Comparison by meal name, for `SELECT * FROM meals ORDER BY name`
(server.js line 169). -/
def leName (a b : Meal) : Bool := decide (a.name ≤ b.name)

/-- The grouped rows of the matching query before ORDER BY/LIMIT
(server.js lines 117-124): each meal with at least one meal_items row
(inner JOIN) that passes `HAVING matched_items > 0`.  SQL does not fix the
enumeration order of the `GROUP BY m.id` groups; the model picks id order
as one deterministic refinement, a choice none of the verified properties
depend on. -/
def candidates (db : DB) (ids : List Int) : List Meal :=
  ((db.meals.mergeSort leId).filter
    (fun m => 0 < totalFor db m ∧ 0 < matchedFor db ids m))

/-- The meal rows returned by the matching query (server.js lines 117-127):
candidates ordered by the two ORDER BY keys and truncated by `LIMIT 5`.
The SQL has no tertiary sort key, so the relative order of rows whose two
keys tie is left open by the source; the model resolves such ties
deterministically (stable merge sort over the id-ordered candidate list),
and every verified property holds under any other tie resolution. -/
def rankedMeals (db : DB) (ids : List Int) : List Meal :=
  ((candidates db ids).mergeSort (rankLE db ids)).take 5

/-- The attached ingredient list of one meal, from
`SELECT mi.meal_id, it.* FROM meal_items mi JOIN items it ON mi.item_id =
it.id WHERE mi.meal_id IN (...)` (server.js lines 100-108): for each
meal_items row of the meal, in rowid order, the catalog items whose id
equals the row's item id.  The handler keeps `{ id: r.id, name: r.name }`
of each joined row. -/
def attachedItems (db : DB) (mealId : Int) : List Item :=
  (db.mealItems.filter (fun r => r.meal_id = mealId)).flatMap
    (fun r => db.items.filter (fun it => it.id = r.item_id))

/-- The `formatted` mapping (server.js lines 137-155) applied to one meal
row of the matching query, with the SQL row's aggregate columns
`m.total_items` / `m.matched_items` given by `totalFor` / `matchedFor`. -/
def formatResult (db : DB) (ids : List Int) (m : Meal) : MatchResult :=
  let items := attachedItems db m.id
  let total := jsOr items.length (jsOr (totalFor db m) 0)
  let matchedList := items.filter (fun it => it.id ∈ ids)
  let matched := jsOr matchedList.length (jsOr (matchedFor db ids m) 0)
  let missingList := items.filter (fun it => ¬ it.id ∈ ids)
  { id := m.id
    name := m.name
    description := m.description
    total_items := total
    matched_items := matched
    score := if total ≠ 0 then (matched : ℚ) / (total : ℚ) else 0
    missing_count := (total : Int) - (matched : Int)
    items := items
    matched_item_names := matchedList.map (fun it => it.name)
    missing_item_names := missingList.map (fun it => it.name) }

/-- The ranked-mode response body: the matching query's rows formatted. -/
def matchResults (db : DB) (ids : List Int) : List MatchResult :=
  (rankedMeals db ids).map (formatResult db ids)

/-- The function `runMatchWithItemIds` (server.js lines 114-160): an empty
id list short-circuits to `res.status(200).json([])`; otherwise the
matching query runs and the formatted rows are returned (also an empty
ranked array when no row matches). -/
def runMatchWithItemIds (db : DB) (itemIds : List Int) : Response :=
  if itemIds.isEmpty then .ranked 200 []
  else .ranked 200 (matchResults db itemIds)

/-- The browse-mode listing (server.js lines 169-174): all meals ordered by
name, each with its attached ingredient list. -/
def browseListing (db : DB) : List MealWithItems :=
  (db.meals.mergeSort leName).map
    (fun m => { id := m.id, name := m.name, description := m.description,
                items := attachedItems db m.id })

/-- The ids read by `SELECT DISTINCT item_id FROM inventory` and kept by
`.filter(n => Number.isFinite(n))` (server.js lines 164-166); every
INTEGER item_id is finite, so the JS filter keeps all of them. -/
def inventoryItemIds (db : DB) : List Int :=
  (db.inventory.map (fun r => r.item_id)).dedup

/-- JavaScript `String.prototype.split(',')` on the character list of the
parameter: splitting at every comma, keeping empty fragments (so the empty
string yields one empty token, as in JS). -/
def splitComma : List Char → List (List Char)
  | [] => [[]]
  | c :: rest =>
    let r := splitComma rest
    if c = ',' then [] :: r
    else
      match r with
      | t :: ts => (c :: t) :: ts
      | [] => [[c]]

/-- The value of the leading decimal-digit run of a token, `none` when the
token does not start with a digit — the digit-consuming core of
JavaScript `parseInt(s, 10)`. -/
def digitsValue (cs : List Char) : Option Nat :=
  let ds := cs.takeWhile (fun c => c.isDigit)
  if ds.isEmpty then none
  else some (ds.foldl (fun acc c => acc * 10 + (c.toNat - '0'.toNat)) 0)

/-- JavaScript `parseInt(s, 10)`: skip leading whitespace, read an optional
sign, then the leading digit run; `none` models NaN (no digits). -/
def jsParseInt10 (cs : List Char) : Option Int :=
  match cs.dropWhile (fun c => c = ' ' ∨ c = '\t' ∨ c = '\n' ∨ c = '\r') with
  | '-' :: rest => (digitsValue rest).map (fun n => -(n : Int))
  | '+' :: rest => (digitsValue rest).map (fun n => (n : Int))
  | rest => (digitsValue rest).map (fun n => (n : Int))

/-- The id parsing of the `item_ids` query parameter (server.js line 184):
`split(',').map(s => parseInt(s, 10)).filter(n => Number.isFinite(n))` —
tokens whose parse is NaN are dropped, every parsed value (negative ones
included) is kept. -/
def parseItemIds (s : String) : List Int :=
  (splitComma s.toList).filterMap jsParseInt10

/-- The no-parameter branch of GET /api/meals (server.js lines 162-181):
resolve ids from the inventory; when none exist, fall back to the
browse-mode full listing, otherwise run the match. -/
def getMealsDefault (db : DB) : Response :=
  if (inventoryItemIds db).isEmpty then .browse 200 (browseListing db)
  else runMatchWithItemIds db (inventoryItemIds db)

/-- The GET /api/meals handler (server.js lines 92-188).  A missing
parameter — and, by JavaScript truthiness of `!itemIdsParam`, an empty
string — takes the inventory/browse branch; otherwise the parameter is
parsed and an empty surviving id list is rejected with HTTP 400. -/
def getMeals (db : DB) (param : Option String) : Response :=
  match param with
  | none => getMealsDefault db
  | some s =>
    if s = "" then getMealsDefault db
    else
      let ids := parseItemIds s
      if ids.isEmpty then
        .error 400 "item_ids must be a comma-separated list of numbers"
      else runMatchWithItemIds db ids

/-- Reference integrity of the recipe catalog: every meal_items row joins
with exactly one catalog item (its item_id hits exactly one `items` row —
guaranteed in SQLite by `items.id INTEGER PRIMARY KEY` whenever the
reference resolves at all). -/
def RefsOK (db : DB) : Prop :=
  ∀ r ∈ db.mealItems, (db.items.filter (fun it => it.id = r.item_id)).length = 1

instance : DecidablePred RefsOK := fun db => by
  unfold RefsOK; infer_instance

/-- The rowid SQLite assigns to a new `items` row: one past the largest id
in use.  None of the verified properties depend on the exact value, only on
the new row being appended. -/
def nextItemId (db : DB) : Int :=
  (db.items.map (fun it => it.id)).foldr max 0 + 1

/-- The item_name branch of the `ensureItem` helper of POST /api/inventory
(server.js lines 234-243): a falsy (missing or empty) name is rejected;
otherwise the first catalog item with that name is reused, and only when
none exists is a new row inserted. -/
def ensureItemByName (db : DB) (item_name : Option String) :
    Except String (DB × Int) :=
  match item_name with
  | none => .error "item_id or item_name required"
  | some nm =>
    if nm = "" then .error "item_id or item_name required"
    else
      match db.items.find? (fun it => it.name = nm) with
      | some it => .ok (db, it.id)
      | none =>
        .ok ({ db with items := db.items ++ [{ id := nextItemId db, name := nm }] },
             nextItemId db)

/-- The `ensureItem` helper of POST /api/inventory (server.js lines
225-244): a truthy item_id (nonzero, by JavaScript truthiness) is verified
against the catalog and never creates anything; otherwise the name branch
runs. -/
def ensureItem (db : DB) (item_id : Option Int) (item_name : Option String) :
    Except String (DB × Int) :=
  match item_id with
  | some iid =>
    if iid ≠ 0 then
      if (db.items.find? (fun it => it.id = iid)).isSome then .ok (db, iid)
      else .error "item_id not found"
    else ensureItemByName db item_name
  | none => ensureItemByName db item_name

/-- The body of PUT /api/inventory/:id (server.js line 282): each field is
`none` when omitted from (or null in) the JSON body. -/
structure PutBody where
  expiry_date : Option String
  quantity : Option Int
deriving DecidableEq, Repr

/-- The first SQL parameter of the UPDATE, `expiry_date || null`
(server.js line 284): a missing or empty-string expiry becomes NULL. -/
def putExpiryParam (b : PutBody) : Option String :=
  match b.expiry_date with
  | some s => if s = "" then none else some s
  | none => none

/-- The second SQL parameter of the UPDATE, `typeof quantity ===
'undefined' ? null : quantity` (server.js line 284). -/
def putQuantityParam (b : PutBody) : Option Int := b.quantity

/-- One row under `UPDATE inventory SET expiry_date = COALESCE(?,
expiry_date), quantity = COALESCE(?, quantity)` (server.js line 283). -/
def applyPut (b : PutBody) (r : InventoryRow) : InventoryRow :=
  { r with
    expiry_date :=
      match putExpiryParam b with
      | some v => some v
      | none => r.expiry_date
    quantity :=
      match putQuantityParam b with
      | some v => v
      | none => r.quantity }

/-- The PUT /api/inventory/:id handler (server.js lines 280-292): run the
COALESCE update on the rows with the addressed id; when no row changed,
answer 404 (and the store is untouched), otherwise 200. -/
def putInventory (db : DB) (rid : Int) (b : PutBody) : DB × Nat :=
  let changed := db.inventory.countP (fun r => r.id = rid)
  if changed = 0 then (db, 404)
  else
    ({ db with inventory :=
        db.inventory.map (fun r => if r.id = rid then applyPut b r else r) },
     200)

/-- A small concrete database used to instantiate the proved theorems:
the worked example of the specification (meals A, B, C over milk, eggs,
flour, sugar). -/
def sampleDb : DB :=
  { items := [{ id := 1, name := "milk" }, { id := 2, name := "eggs" },
              { id := 3, name := "flour" }, { id := 4, name := "sugar" }]
    meals := [{ id := 1, name := "A", description := "a" },
              { id := 2, name := "B", description := "b" },
              { id := 3, name := "C", description := "c" }]
    mealItems := [{ meal_id := 1, item_id := 1 }, { meal_id := 1, item_id := 2 },
                  { meal_id := 2, item_id := 1 }, { meal_id := 2, item_id := 2 },
                  { meal_id := 2, item_id := 3 }, { meal_id := 3, item_id := 4 }]
    inventory := [] }

/-- The empty database. -/
def emptyDb : DB := { items := [], meals := [], mealItems := [], inventory := [] }

/-- A concrete database with one inventory row, for the inventory-update
theorems. -/
def invDb : DB :=
  { items := [{ id := 10, name := "milk" }]
    meals := []
    mealItems := []
    inventory := [{ id := 1, item_id := 10, expiry_date := some "2025-01-01",
                    quantity := 2 }] }

/-- A concrete PUT body supplying only the quantity. -/
def bodyA : PutBody := { expiry_date := none, quantity := some 5 }

/-! ### Helper lemmas about the order relations -/

theorem rankLE_trans (db : DB) (ids : List Int) (a b c : Meal) :
    rankLE db ids a b → rankLE db ids b c → rankLE db ids a c := by
  simp only [rankLE, Bool.or_eq_true, Bool.and_eq_true, decide_eq_true_eq]
  omega

theorem rankLE_total (db : DB) (ids : List Int) (a b : Meal) :
    rankLE db ids a b || rankLE db ids b a := by
  simp only [rankLE, Bool.or_eq_true, Bool.and_eq_true, decide_eq_true_eq]
  omega

theorem leName_trans (a b c : Meal) : leName a b → leName b c → leName a c := by
  simp only [leName, decide_eq_true_eq]
  exact fun h1 h2 => le_trans h1 h2

theorem leName_total (a b : Meal) : leName a b || leName b a := by
  simp only [leName, Bool.or_eq_true, decide_eq_true_eq]
  exact le_total a.name b.name

/-! ### The attached ingredient list versus the SQL aggregates -/

/-- Under reference integrity, filtering the attached (joined) item list by
any predicate on item ids counts exactly the underlying meal_items rows
whose item_id satisfies the predicate. -/
theorem flatMap_filter_count (db : DB) (hok : RefsOK db) :
    ∀ (rows : List MealItemRow), (∀ r ∈ rows, r ∈ db.mealItems) →
      ∀ (q : Int → Bool),
        ((rows.flatMap (fun r => db.items.filter (fun it => it.id = r.item_id))).filter
            (fun it => q it.id)).length
          = (rows.filter (fun r => q r.item_id)).length := by
  intro rows
  induction rows with
  | nil => simp
  | cons r rs ih =>
    intro hsub q
    have hr : (db.items.filter (fun it => it.id = r.item_id)).length = 1 :=
      hok r (hsub r (by simp))
    obtain ⟨it, hit⟩ := List.length_eq_one.mp hr
    have hmem : it ∈ db.items.filter (fun x => x.id = r.item_id) := by
      rw [hit]; simp
    have hid : it.id = r.item_id := by
      have := (List.mem_filter.mp hmem).2
      simpa using this
    have ihs : ∀ x ∈ rs, x ∈ db.mealItems := fun x hx => hsub x (by simp [hx])
    rw [List.flatMap_cons, List.filter_append, List.length_append, hit]
    cases hq : q r.item_id with
    | true =>
      simp only [List.filter_cons, List.filter_nil, hid, hq, if_true,
        List.length_cons, List.length_nil, ih ihs q]
      omega
    | false =>
      simp only [List.filter_cons, List.filter_nil, hid, hq,
        Bool.false_eq_true, if_false, List.length_nil, ih ihs q]
      omega

/-- Under reference integrity, the attached ingredient list of a meal has
exactly one entry per meal_items row of the meal. -/
theorem attached_length (db : DB) (hok : RefsOK db) (m : Meal) :
    (attachedItems db m.id).length = totalFor db m := by
  have h := flatMap_filter_count db hok
    (db.mealItems.filter (fun r => r.meal_id = m.id))
    (fun r hr => List.mem_of_mem_filter hr)
    (fun _ => true)
  simpa [attachedItems, totalFor] using h

/-- Under reference integrity, the matched sublist of the attached list
counts exactly the SQL matched aggregate. -/
theorem attached_matched_length (db : DB) (ids : List Int) (hok : RefsOK db)
    (m : Meal) :
    ((attachedItems db m.id).filter (fun it => it.id ∈ ids)).length
      = matchedFor db ids m := by
  have h := flatMap_filter_count db hok
    (db.mealItems.filter (fun r => r.meal_id = m.id))
    (fun r hr => List.mem_of_mem_filter hr)
    (fun i => decide (i ∈ ids))
  simpa [attachedItems, matchedFor] using h

/-- Under reference integrity, the missing sublist of the attached list
counts exactly the rows whose item id is not in the supplied set. -/
theorem attached_missing_length (db : DB) (ids : List Int) (hok : RefsOK db)
    (m : Meal) :
    ((attachedItems db m.id).filter (fun it => ¬ it.id ∈ ids)).length
      = ((db.mealItems.filter (fun r => r.meal_id = m.id)).filter
          (fun r => ¬ r.item_id ∈ ids)).length := by
  have h := flatMap_filter_count db hok
    (db.mealItems.filter (fun r => r.meal_id = m.id))
    (fun r hr => List.mem_of_mem_filter hr)
    (fun i => decide (¬ i ∈ ids))
  simpa [attachedItems] using h

/-- Splitting a list by a predicate splits its length. -/
theorem filter_split_length {α : Type} (p : α → Bool) (l : List α) :
    (l.filter p).length + (l.filter (fun a => ¬ p a)).length = l.length := by
  induction l with
  | nil => simp
  | cons x t ih =>
    cases hx : p x <;> simp [List.filter_cons, hx] at ih ⊢ <;> omega

/-- Splitting the attached item list into matched and missing entries
splits its length. -/
theorem filter_mem_split (items : List Item) (ids : List Int) :
    (items.filter (fun it => it.id ∈ ids)).length +
      (items.filter (fun it => ¬ it.id ∈ ids)).length = items.length := by
  induction items with
  | nil => simp
  | cons x t ih =>
    by_cases hx : x.id ∈ ids <;> simp [List.filter_cons, hx] at ih ⊢ <;> omega

/-- The SQL matched aggregate counts a subset of the rows counted by the
total aggregate. -/
theorem matchedFor_le_totalFor (db : DB) (ids : List Int) (m : Meal) :
    matchedFor db ids m ≤ totalFor db m :=
  List.length_filter_le _ _

/-- Under reference integrity, the `total_items` field of a formatted
result (`items.length || m.total_items || 0`) equals the SQL total
aggregate. -/
theorem formatResult_total (db : DB) (ids : List Int) (m : Meal)
    (hok : RefsOK db) :
    (formatResult db ids m).total_items = totalFor db m := by
  simp only [formatResult]
  rw [attached_length db hok m]
  by_cases h : totalFor db m = 0 <;> simp [jsOr, h]

/-- Under reference integrity, the `matched_items` field of a formatted
result (`matchedList.length || m.matched_items || 0`) equals the SQL
matched aggregate. -/
theorem formatResult_matched (db : DB) (ids : List Int) (m : Meal)
    (hok : RefsOK db) :
    (formatResult db ids m).matched_items = matchedFor db ids m := by
  simp only [formatResult]
  rw [attached_matched_length db ids hok m]
  by_cases h : matchedFor db ids m = 0 <;> simp [jsOr, h]

/-- Every meal surviving to the ranked output is one of the grouped
candidate rows. -/
theorem rankedMeals_subset_candidates (db : DB) (ids : List Int) :
    ∀ m ∈ rankedMeals db ids, m ∈ candidates db ids := by
  intro m hm
  have h1 : m ∈ (candidates db ids).mergeSort (rankLE db ids) :=
    List.mem_of_mem_take hm
  exact (List.mergeSort_perm _ _).subset h1

/-- Candidate rows passed `HAVING matched_items > 0`. -/
theorem candidates_matched_pos (db : DB) (ids : List Int) (m : Meal)
    (hm : m ∈ candidates db ids) : 0 < matchedFor db ids m := by
  have h := (List.mem_filter.mp hm).2
  simp only [decide_eq_true_eq] at h
  exact h.2

/-- The JavaScript fallback chain `a || a || 0` collapses to `a`. -/
theorem jsOr_self (a : Nat) : jsOr a (jsOr a 0) = a := by
  by_cases h : a = 0 <;> simp [jsOr, h]

/-- A fallback chain `a || b || 0` with positive `b` is positive. -/
theorem one_le_jsOr (a b : Nat) (hb : 0 < b) : 1 ≤ jsOr a (jsOr b 0) := by
  by_cases ha : a = 0 <;> by_cases hb0 : b = 0 <;> simp [jsOr, ha, hb0] <;> omega

/-! ### The claims -/

/-- C6: for an explicitly empty set of available item ids (the explicit
no-selection state, whatever the inventory holds), `runMatchWithItemIds`
answers an empty ranked result with HTTP 200 — neither an error response
nor the browse-mode listing (server.js line 115). -/
theorem C6_empty_selection (db : DB) :
    runMatchWithItemIds db [] = .ranked 200 [] ∧
    (∀ st msg, runMatchWithItemIds db [] ≠ .error st msg) ∧
    (∀ st listing, runMatchWithItemIds db [] ≠ .browse st listing) := by
  refine ⟨rfl, ?_, ?_⟩ <;> intro st x h <;> simp [runMatchWithItemIds] at h

/-- C8: for every available-id list and every database state the ranked
match responds with a ranked list of at most 5 results — the hard-coded
`LIMIT 5` of server.js line 126. -/
theorem C8_limit (db : DB) (ids : List Int) :
    ∃ rs, runMatchWithItemIds db ids = .ranked 200 rs ∧ rs.length ≤ 5 := by
  unfold runMatchWithItemIds
  by_cases h : ids.isEmpty
  · exact ⟨[], by simp [h], by simp⟩
  · refine ⟨matchResults db ids, by simp [h], ?_⟩
    unfold matchResults rankedMeals
    rw [List.length_map]
    exact List.length_take_le _ _

/-- C1: with a non-empty available-id list, every formatted result has at
least one matched item, and a meal none of whose meal_items rows hits the
id list (in particular a meal with no meal_items rows at all) never enters
the ranked output — the `HAVING matched_items > 0` guard together with the
inner JOIN (server.js lines 122-124). -/
theorem C1_matched_pos (db : DB) (ids : List Int) (hne : ids ≠ []) :
    (∀ r ∈ matchResults db ids, 1 ≤ r.matched_items) ∧
    (∀ m ∈ db.meals,
      (∀ mi ∈ db.mealItems, mi.meal_id = m.id → ¬ mi.item_id ∈ ids) →
      ¬ m ∈ rankedMeals db ids) := by
  constructor
  · intro r hr
    obtain ⟨m, hm, rfl⟩ := List.mem_map.mp hr
    have hc := rankedMeals_subset_candidates db ids m hm
    have hpos := candidates_matched_pos db ids m hc
    simp only [formatResult]
    exact one_le_jsOr _ _ hpos
  · intro m hm hno hmem
    have hc := rankedMeals_subset_candidates db ids m hmem
    have hpos := candidates_matched_pos db ids m hc
    unfold matchedFor at hpos
    obtain ⟨r, hr⟩ := List.exists_mem_of_length_pos hpos
    have h1 := List.mem_filter.mp hr
    have h2 := List.mem_filter.mp h1.1
    exact hno r h2.1 (by simpa using h2.2) (by simpa using h1.2)

/-- C1 instantiated on the concrete example database with ids {milk, eggs}. -/
theorem C1_witness :
    ([1, 2] ≠ ([] : List Int)) ∧
    ((∀ r ∈ matchResults sampleDb [1, 2], 1 ≤ r.matched_items) ∧
     (∀ m ∈ sampleDb.meals,
       (∀ mi ∈ sampleDb.mealItems, mi.meal_id = m.id → ¬ mi.item_id ∈ [1, 2]) →
       ¬ m ∈ rankedMeals sampleDb [1, 2])) :=
  ⟨by decide, C1_matched_pos sampleDb [1, 2] (by decide)⟩

/-- C2: under reference integrity of the recipe catalog, every formatted
result's derived fields agree with the attached ingredient list —
`matched + missing = total`, the score is the exact ratio (0 for an empty
total), and the three counts equal the lengths of the attached lists they
were recomputed from (server.js lines 136-155). -/
theorem C2_derived_fields (db : DB) (ids : List Int) (hok : RefsOK db) :
    ∀ r ∈ matchResults db ids,
      (r.matched_items : Int) + r.missing_count = (r.total_items : Int) ∧
      r.score = (r.matched_items : ℚ) / (r.total_items : ℚ) ∧
      r.matched_items = r.matched_item_names.length ∧
      r.missing_count = (r.missing_item_names.length : Int) ∧
      r.total_items = r.items.length := by
  intro r hr
  obtain ⟨m, hm, rfl⟩ := List.mem_map.mp hr
  have htot := formatResult_total db ids m hok
  have hmat := formatResult_matched db ids m hok
  have hal := attached_length db hok m
  have haml := attached_matched_length db ids hok m
  have hmiss : (formatResult db ids m).missing_count
      = (totalFor db m : Int) - (matchedFor db ids m : Int) := by
    simp only [formatResult]
    rw [hal, haml, jsOr_self, jsOr_self]
  have hscore : (formatResult db ids m).score
      = if totalFor db m ≠ 0 then (matchedFor db ids m : ℚ) / (totalFor db m : ℚ)
        else 0 := by
    simp only [formatResult]
    rw [hal, haml, jsOr_self, jsOr_self]
  have hmn : (formatResult db ids m).matched_item_names.length
      = matchedFor db ids m := by
    simp only [formatResult, List.length_map]
    exact haml
  have hxn : (formatResult db ids m).missing_item_names.length
      = totalFor db m - matchedFor db ids m := by
    simp only [formatResult, List.length_map]
    have hs := filter_mem_split (attachedItems db m.id) ids
    rw [haml, hal] at hs
    omega
  have hitems : (formatResult db ids m).items.length = totalFor db m := by
    simp only [formatResult]
    exact hal
  have hle := matchedFor_le_totalFor db ids m
  refine ⟨?_, ?_, ?_, ?_, ?_⟩
  · rw [htot, hmat, hmiss]; omega
  · rw [hscore, hmat, htot]
    by_cases h : totalFor db m = 0 <;> simp [h]
  · rw [hmat, hmn]
  · rw [hmiss, hxn]; omega
  · rw [htot, hitems]

/-- C2 instantiated on the concrete example database with ids {milk, eggs}. -/
theorem C2_witness :
    RefsOK sampleDb ∧
    (∀ r ∈ matchResults sampleDb [1, 2],
      (r.matched_items : Int) + r.missing_count = (r.total_items : Int) ∧
      r.score = (r.matched_items : ℚ) / (r.total_items : ℚ) ∧
      r.matched_items = r.matched_item_names.length ∧
      r.missing_count = (r.missing_item_names.length : Int) ∧
      r.total_items = r.items.length) :=
  ⟨by decide, C2_derived_fields sampleDb [1, 2] (by decide)⟩

/-- C3: under reference integrity, the ranked output is sorted on the
fields of the returned results: whenever `a` appears before `b`, either
`a` matched strictly more items, or both matched equally many and `a`
misses at most as many (server.js line 125). -/
theorem C3_sorted (db : DB) (ids : List Int) (hok : RefsOK db) :
    (matchResults db ids).Pairwise (fun a b =>
      b.matched_items < a.matched_items ∨
      (a.matched_items = b.matched_items ∧
        (a.total_items : Int) - (a.matched_items : Int)
          ≤ (b.total_items : Int) - (b.matched_items : Int))) := by
  unfold matchResults rankedMeals
  rw [List.pairwise_map]
  have hsorted : (((candidates db ids).mergeSort (rankLE db ids))).Pairwise
      (fun a b => rankLE db ids a b) :=
    List.sorted_mergeSort (rankLE_trans db ids) (rankLE_total db ids) _
  refine (hsorted.sublist (List.take_sublist _ _)).imp ?_
  intro a b hab
  rw [formatResult_matched db ids a hok, formatResult_matched db ids b hok,
    formatResult_total db ids a hok, formatResult_total db ids b hok]
  simp only [rankLE, Bool.or_eq_true, Bool.and_eq_true, decide_eq_true_eq,
    missingFor] at hab
  have h1 := matchedFor_le_totalFor db ids a
  have h2 := matchedFor_le_totalFor db ids b
  omega

/-- C3 instantiated on the concrete example database with ids {milk, eggs}. -/
theorem C3_witness :
    RefsOK sampleDb ∧
    (matchResults sampleDb [1, 2]).Pairwise (fun a b =>
      b.matched_items < a.matched_items ∨
      (a.matched_items = b.matched_items ∧
        (a.total_items : Int) - (a.matched_items : Int)
          ≤ (b.total_items : Int) - (b.matched_items : Int))) :=
  ⟨by decide, C3_sorted sampleDb [1, 2] (by decide)⟩

/-- C5: when no explicit ids are supplied and the inventory yields no
usable item ids, GET /api/meals answers the browse-mode listing: every
meal appears (the listing's ids are a permutation of the meals table's
ids), ordered by name, each carrying its full attached ingredient list, in
the browse shape — never the ranked shape (server.js lines 167-176). -/
theorem C5_browse_mode (db : DB) (hinv : inventoryItemIds db = []) :
    getMeals db none = .browse 200 (browseListing db) ∧
    List.Perm ((browseListing db).map (fun e => e.id)) (db.meals.map Meal.id) ∧
    (browseListing db).Pairwise (fun a b => a.name ≤ b.name) ∧
    (∀ e ∈ browseListing db, e.items = attachedItems db e.id) ∧
    (∀ st rs, getMeals db none ≠ .ranked st rs) := by
  have hb : getMeals db none = .browse 200 (browseListing db) := by
    simp [getMeals, getMealsDefault, hinv]
  refine ⟨hb, ?_, ?_, ?_, ?_⟩
  · unfold browseListing
    rw [List.map_map]
    have hp : List.Perm (db.meals.mergeSort leName) db.meals :=
      List.mergeSort_perm _ _
    simpa [Function.comp] using hp.map Meal.id
  · unfold browseListing
    rw [List.pairwise_map]
    have hs := List.sorted_mergeSort leName_trans leName_total db.meals
    exact hs.imp (fun hab => by simpa [leName] using hab)
  · intro e he
    unfold browseListing at he
    obtain ⟨m, hm, rfl⟩ := List.mem_map.mp he
    rfl
  · intro st rs h
    rw [hb] at h
    exact Response.noConfusion h

/-- C5 instantiated on the concrete example database, whose inventory is
empty. -/
theorem C5_witness :
    inventoryItemIds sampleDb = [] ∧
    (getMeals sampleDb none = .browse 200 (browseListing sampleDb) ∧
     List.Perm ((browseListing sampleDb).map (fun e => e.id))
       (sampleDb.meals.map Meal.id) ∧
     (browseListing sampleDb).Pairwise (fun a b => a.name ≤ b.name) ∧
     (∀ e ∈ browseListing sampleDb, e.items = attachedItems sampleDb e.id) ∧
     (∀ st rs, getMeals sampleDb none ≠ .ranked st rs)) :=
  ⟨by decide, C5_browse_mode sampleDb (by decide)⟩

/-- C4, counterexample: the token `-3` is numeric-negative, yet the parse
of server.js line 184 keeps it (`Number.isFinite(-3)` is true), so the
claimed filtering of negative tokens does not happen: the request runs the
match with `[-3]` and answers an empty ranked 200 response instead of the
HTTP 400 that an emptied-by-filtering set would produce. -/
theorem C4_counterexample :
    parseItemIds "-3" = [-3] ∧ ((-3 : Int) < 0) ∧
    getMeals emptyDb (some "-3") = .ranked 200 [] := by
  have hp : parseItemIds "-3" = [-3] := by decide
  refine ⟨hp, by decide, ?_⟩
  have hs : ¬ (("-3" : String) = "") := by decide
  simp [getMeals, hs, hp, runMatchWithItemIds, matchResults, rankedMeals,
    candidates, emptyDb]

/-- C4, amended: non-numeric tokens (and only those) are filtered out of
the `item_ids` parameter before matching — every id that reaches the match
is the successful `parseInt` of one comma-separated token, negative values
included — and a non-empty parameter whose tokens all fail to parse yields
the HTTP 400 validation error rather than a silent empty match; a
parameter with at least one numeric token runs the match on the surviving
ids (server.js lines 184-187). -/
theorem C4_amended (db : DB) (s : String) (hs : s ≠ "") :
    (∀ n ∈ parseItemIds s, ∃ tok ∈ splitComma s.toList, jsParseInt10 tok = some n) ∧
    (parseItemIds s = [] →
      getMeals db (some s)
        = .error 400 "item_ids must be a comma-separated list of numbers") ∧
    (parseItemIds s ≠ [] →
      getMeals db (some s) = runMatchWithItemIds db (parseItemIds s)) := by
  refine ⟨?_, ?_, ?_⟩
  · intro n hn
    exact List.mem_filterMap.mp hn
  · intro hemp
    simp [getMeals, hs, hemp]
  · intro hne
    simp only [getMeals, if_neg hs]
    rw [if_neg]
    simp [List.isEmpty_iff, hne]

/-- C4 amended, instantiated: the parameter string with one numeric and
one alphabetic token. -/
theorem C4_amended_witness :
    (("2,abc" : String) ≠ "") ∧
    ((∀ n ∈ parseItemIds "2,abc",
        ∃ tok ∈ splitComma ("2,abc" : String).toList, jsParseInt10 tok = some n) ∧
     (parseItemIds "2,abc" = [] →
       getMeals sampleDb (some "2,abc")
         = .error 400 "item_ids must be a comma-separated list of numbers") ∧
     (parseItemIds "2,abc" ≠ [] →
       getMeals sampleDb (some "2,abc")
         = runMatchWithItemIds sampleDb (parseItemIds "2,abc"))) :=
  ⟨by decide, C4_amended sampleDb "2,abc" (by decide)⟩

/-- C9: catalog-item creation during inventory create is idempotent by
name lookup — when a catalog item with the requested name already exists
its id is reused and the catalog is untouched, and re-running the
name-resolution step after any successful run returns the same state and
the same id, so a failed create's item-resolution step can be retried
safely (server.js lines 234-243). -/
theorem C9_ensure_idempotent (db : DB) (nm : String) :
    ((nm ≠ "" ∧ ∃ it ∈ db.items, it.name = nm) →
      ∃ i, ensureItem db none (some nm) = .ok (db, i)) ∧
    (∀ db2 i, ensureItem db none (some nm) = .ok (db2, i) →
      ensureItem db2 none (some nm) = .ok (db2, i)) := by
  have hred : ∀ d : DB, ensureItem d none (some nm) = ensureItemByName d (some nm) :=
    fun d => rfl
  constructor
  · rintro ⟨hnm, it, hit, hname⟩
    rw [hred]
    simp only [ensureItemByName]
    rw [if_neg hnm]
    have hsome : (db.items.find? (fun x => x.name = nm)).isSome := by
      rw [List.find?_isSome]
      exact ⟨it, hit, by simp [hname]⟩
    obtain ⟨j, hj⟩ := Option.isSome_iff_exists.mp hsome
    rw [hj]
    exact ⟨j.id, rfl⟩
  · intro db2 i h
    rw [hred] at h ⊢
    simp only [ensureItemByName] at h ⊢
    by_cases hnm : nm = ""
    · rw [if_pos hnm] at h
      exact Except.noConfusion h
    · rw [if_neg hnm] at h ⊢
      cases hfind : db.items.find? (fun x => x.name = nm) with
      | some it =>
        rw [hfind] at h
        injection h with h'
        injection h' with h1 h2
        subst h1
        subst h2
        rw [hfind]
      | none =>
        rw [hfind] at h
        injection h with h'
        injection h' with h1 h2
        subst h1
        subst h2
        dsimp only
        rw [List.find?_append, hfind, Option.none_or,
          List.find?_cons_of_pos _ (by simp)]

/-- C9 instantiated: resolving the existing name milk twice leaves the
example catalog untouched. -/
theorem C9_witness :
    (("milk" : String) ≠ "" ∧ ∃ it ∈ sampleDb.items, it.name = "milk") ∧
    (∃ i, ensureItem sampleDb none (some "milk") = .ok (sampleDb, i)) :=
  ⟨by decide, (C9_ensure_idempotent sampleDb "milk").1 (by decide)⟩

/-- C10: the inventory update is a partial update that frames everything
it does not name — on a missing id the store is returned unchanged with a
404; otherwise the status is 200 and, row by row, rows with a different id
are untouched while the addressed rows keep their id and item reference
and keep any field the body omits, via the COALESCE parameters
(server.js lines 280-292).  The other three tables are never touched. -/
theorem C10_put_frame (db : DB) (rid : Int) (b : PutBody) :
    (putInventory db rid b).1.items = db.items ∧
    (putInventory db rid b).1.meals = db.meals ∧
    (putInventory db rid b).1.mealItems = db.mealItems ∧
    ((∀ r ∈ db.inventory, r.id ≠ rid) → putInventory db rid b = (db, 404)) ∧
    ((∃ r ∈ db.inventory, r.id = rid) →
      (putInventory db rid b).2 = 200 ∧
      List.Forall₂ (fun old new =>
          (old.id ≠ rid → new = old) ∧
          (old.id = rid →
            new.id = old.id ∧ new.item_id = old.item_id ∧
            (b.expiry_date = none → new.expiry_date = old.expiry_date) ∧
            (b.quantity = none → new.quantity = old.quantity)))
        db.inventory (putInventory db rid b).1.inventory) := by
  refine ⟨?_, ?_, ?_, ?_, ?_⟩
  · unfold putInventory
    by_cases h : db.inventory.countP (fun r => r.id = rid) = 0 <;> simp [h]
  · unfold putInventory
    by_cases h : db.inventory.countP (fun r => r.id = rid) = 0 <;> simp [h]
  · unfold putInventory
    by_cases h : db.inventory.countP (fun r => r.id = rid) = 0 <;> simp [h]
  · intro hnone
    unfold putInventory
    have h0 : db.inventory.countP (fun r => r.id = rid) = 0 := by
      rw [List.countP_eq_zero]
      intro r hr
      simpa using hnone r hr
    simp [h0]
  · rintro ⟨r0, hr0, hid0⟩
    have hpos : db.inventory.countP (fun r => r.id = rid) ≠ 0 := by
      intro h0
      have := List.countP_eq_zero.mp h0 r0 hr0
      simp [hid0] at this
    constructor
    · unfold putInventory
      simp [hpos]
    · unfold putInventory
      rw [if_neg hpos]
      dsimp only
      rw [List.forall₂_map_right_iff, List.forall₂_same]
      intro r hr
      by_cases hrid : r.id = rid
      · constructor
        · intro hne
          exact absurd hrid hne
        · intro _
          rw [if_pos hrid]
          refine ⟨rfl, rfl, ?_, ?_⟩
          · intro hbe
            simp [applyPut, putExpiryParam, hbe]
          · intro hbq
            simp [applyPut, putQuantityParam, hbq]
      · constructor
        · intro _
          rw [if_neg hrid]
        · intro heq
          exact absurd heq hrid

/-- C10 instantiated on the one-row inventory: a missing id answers 404
with the store unchanged, and updating the present row with a body that
omits the expiry keeps it. -/
theorem C10_witness :
    (putInventory invDb 99 bodyA = (invDb, 404)) ∧
    ((putInventory invDb 1 bodyA).2 = 200 ∧
     List.Forall₂ (fun old new =>
         (old.id ≠ (1 : Int) → new = old) ∧
         (old.id = (1 : Int) →
           new.id = old.id ∧ new.item_id = old.item_id ∧
           (bodyA.expiry_date = none → new.expiry_date = old.expiry_date) ∧
           (bodyA.quantity = none → new.quantity = old.quantity)))
       invDb.inventory (putInventory invDb 1 bodyA).1.inventory) :=
  ⟨(C10_put_frame invDb 99 bodyA).2.2.2.1 (by decide),
   (C10_put_frame invDb 1 bodyA).2.2.2.2 (by decide)⟩
